import Mathlib

/-!
Shallow embedding of cosmoHammer/pso/BestFitPositionGenerator.py.

The module orchestrates a particle-swarm optimisation run, logs the global
best of every iteration to a file, flattens the last four iterations' swarms
into a point cloud, fits a curvature model to it and finally draws the
walker starting positions from a multivariate normal distribution.

Modelling conventions:
- Python floats are modelled as rationals, except for numpy.log inside
  get_particle_count, which is modelled as the real logarithm.
- File I/O is modelled as a trace of FileEvent values (opened / write /
  flush / closed), one trace per artifact.
- The collaborating classes ParticleSwarmOptimizer and CurvatureFitter live
  in files of this repository that are not part of the sources here; the
  optimizer's output is abstracted as the list of yielded swarm snapshots
  plus the global best observed at each save call, and the fitter is
  modelled from the spec (see CurvatureFitterModel).
- String formatting of numbers (str, the percent-f format) is abstracted by
  formatter functions passed as parameters.
-/

/-- Tab separator used by the persistence code. -/
def tab : String := "\t"

/-- Newline terminator used by the persistence code. -/
def nl : String := "\n"

/-- Model of the Python str.join method: the separator is interleaved
between the elements; an empty list yields the empty string. -/
def pyJoin (sep : String) : List String → String
  | [] => ""
  | [x] => x
  | x :: y :: rest => x ++ sep ++ pyJoin sep (y :: rest)

/-- A particle as seen by this module: a fitness value and a position
vector. Float components are modelled as rationals. -/
structure Particle where
  fitness : ℚ
  position : List ℚ
deriving DecidableEq

/-- Events observed on one output file handle. -/
inductive FileEvent where
  | opened : FileEvent
  | write : String → FileEvent
  | flush : FileEvent
  | closed : FileEvent
deriving DecidableEq

/-- The characters a trace of file events writes to the file. -/
def writtenChars : List FileEvent → List Char
  | [] => []
  | FileEvent.write s :: rest => s.data ++ writtenChars rest
  | FileEvent.opened :: rest => writtenChars rest
  | FileEvent.flush :: rest => writtenChars rest
  | FileEvent.closed :: rest => writtenChars rest

/-- Number of newline characters a trace writes: the number of lines the
resulting file contains, provided every line is newline terminated. -/
def lineCount (es : List FileEvent) : ℕ := (writtenChars es).count '\n'

/-- Whether an event is a write. -/
def isWrite : FileEvent → Bool
  | FileEvent.write _ => true
  | _ => false

/-- Whether an event is a flush. -/
def isFlush : FileEvent → Bool
  | FileEvent.flush => true
  | _ => false

/-- Whether an event is an open. -/
def isOpen : FileEvent → Bool
  | FileEvent.opened => true
  | _ => false

/-- Every write event of the trace is followed, later in the trace, by a
flush event. -/
def everyWriteFlushed : List FileEvent → Bool
  | [] => true
  | e :: rest => (!(isWrite e) || rest.any isFlush) && everyWriteFlushed rest

/-- Model of the method BestFitPositionGenerator._save: when the optimizer
reports this process as master, one log line is written (iteration index,
a tab, the formatted global best fitness, a tab, the tab separated global
best position, a newline) followed by a flush; otherwise nothing happens.
fmtI models the percent-s rendering of the index, fmtF the percent-f
rendering of the fitness, fmtS the str rendering of a coordinate. -/
def _save (isMaster : Bool) (fmtI : ℕ → String) (fmtF fmtS : ℚ → String)
    (i : ℕ) (gbest : Particle) : List FileEvent :=
  if isMaster then
    [FileEvent.write (fmtI i ++ tab ++ fmtF gbest.fitness ++ tab),
     FileEvent.write (pyJoin tab (gbest.position.map fmtS)),
     FileEvent.write nl,
     FileEvent.flush]
  else []

/-- Model of the iteration-log part of BestFitPositionGenerator.generate:
the best-fit file is opened, _save runs once per yielded snapshot with the
running index, once more with the index one past the loop, and the file is
closed. gbestAt i is the optimizer's global best at the i-th save call.
When the optimizer yields no snapshot at all the loop variable of the final
save is unbound in the Python source (a NameError), modelled as none. -/
def generate_log (isMaster : Bool) (fmtI : ℕ → String) (fmtF fmtS : ℚ → String)
    (gbestAt : ℕ → Particle) (snapshots : List (List Particle)) :
    Option (List FileEvent) :=
  if snapshots.length = 0 then none
  else some (FileEvent.opened ::
    ((((List.range snapshots.length).map
        (fun i => _save isMaster fmtI fmtF fmtS i (gbestAt i))).flatten
      ++ _save isMaster fmtI fmtF fmtS snapshots.length
          (gbestAt snapshots.length))
    ++ [FileEvent.closed]))

/-- Model of Python negative indexing l[-i] for 1 ≤ i: the element at
offset length - i, an IndexError (none) when i exceeds the length. -/
def pyGetNeg (l : List α) (i : ℕ) : Option α :=
  if 1 ≤ i ∧ i ≤ l.length then l.get? (l.length - i) else none

/-- Model of the window-assembly loop of generate:
fswarm = [] ; for i in range(1,5): fswarm += swarm[-i].
The four accesses are unrolled; any out-of-range access aborts the run. -/
def buildFswarm (swarm : List (List Particle)) : Option (List Particle) := do
  let s1 ← pyGetNeg swarm 1
  let s2 ← pyGetNeg swarm 2
  let s3 ← pyGetNeg swarm 3
  let s4 ← pyGetNeg swarm 4
  pure (s1 ++ s2 ++ s3 ++ s4)

/-- Header text of the best-fit info file. -/
def bestFitHeader : String := "#Best fit: "

/-- Separator of the best position coordinates in the info file. -/
def commaSpace : String := ", "

/-- Header line preceding the covariance matrix in the info file. -/
def covHeader : String := "\n#Estimated covariance matrix:\n"

/-- Opening bracket of a covariance row. -/
def lbrack : String := "["

/-- Closing bracket plus newline of a covariance row. -/
def rbrackNl : String := "]\n"

/-- Separator of the covariance entries within a row. -/
def commaTwoSpace : String := ",  "

/-- Model of BestFitPositionGenerator._storeFit: the info file is opened,
a best-fitness header line, the comma separated best position, a
covariance header and one bracketed row per covariance row are written,
and the file is closed. No flush is issued. -/
def _storeFit (fmtS : ℚ → String) (gbest : Particle) (cov : List (List ℚ)) :
    List FileEvent :=
  FileEvent.opened ::
    ((FileEvent.write (bestFitHeader ++ fmtS gbest.fitness ++ nl) ::
      FileEvent.write (pyJoin commaSpace (gbest.position.map fmtS)) ::
      FileEvent.write covHeader ::
      cov.map (fun row =>
        FileEvent.write (lbrack ++ pyJoin commaTwoSpace (row.map fmtS) ++ rbrackNl)))
    ++ [FileEvent.closed])

/-- The writes of BestFitPositionGenerator._storeSwarm for one particle:
its formatted fitness, a tab, the tab separated coordinates, a newline. -/
def storeSwarmParticle (fmtS : ℚ → String) (p : Particle) : List FileEvent :=
  [FileEvent.write (fmtS p.fitness), FileEvent.write tab,
   FileEvent.write (pyJoin tab (p.position.map fmtS)), FileEvent.write nl]

/-- The body of BestFitPositionGenerator._storeSwarm: the per-particle
writes, in swarm order. -/
def storeSwarmBody (fmtS : ℚ → String) (swarm : List Particle) : List FileEvent :=
  (swarm.map (storeSwarmParticle fmtS)).flatten

/-- Model of BestFitPositionGenerator._storeSwarm: the swarm file is
opened, each particle of the given list is written, and the file is
closed. No flush is issued. -/
def _storeSwarm (fmtS : ℚ → String) (swarm : List Particle) : List FileEvent :=
  FileEvent.opened :: (storeSwarmBody fmtS swarm ++ [FileEvent.closed])

/-- The line the spec describes for one particle of the swarm file: the
fitness and the coordinates, tab separated, newline terminated. Stated
from the spec's words, for comparison with the trace of _storeSwarm. -/
def specSwarmLine (fmtS : ℚ → String) (p : Particle) : String :=
  pyJoin tab (fmtS p.fitness :: p.position.map fmtS) ++ nl

/-- The constant MAX_PSO_ITER of BestFitPositionGenerator. -/
def MAX_PSO_ITER : ℕ := 1000

/-- The constant MIN_PARTICLE_COUNT of BestFitPositionGenerator. -/
def MIN_PARTICLE_COUNT : ℕ := 20

/-- The fields of BestFitPositionGenerator assigned by its constructor. -/
structure BestFitPositionGenerator where
  mpi : Bool
  threads : ℕ
  particleCount : Option ℤ
  maxIter : ℕ

/-- Model of BestFitPositionGenerator.__init__: all arguments are stored;
a missing maxIter falls back to MAX_PSO_ITER. -/
def mkGenerator (mpi : Bool) (threads : ℕ) (particleCount : Option ℤ)
    (maxIter : Option ℕ) : BestFitPositionGenerator :=
  ⟨mpi, threads, particleCount, maxIter.getD MAX_PSO_ITER⟩

/-- Model of Python int() applied to a real value: truncation towards
zero. -/
noncomputable def pyTrunc (x : ℝ) : ℤ := if 0 ≤ x then ⌊x⌋ else ⌈x⌉

/-- Model of BestFitPositionGenerator.get_particle_count:
int(MIN_PARTICLE_COUNT + MIN_PARTICLE_COUNT * numpy.log(paramCount)),
with numpy.log modelled as the real logarithm. -/
noncomputable def get_particle_count (paramCount : ℕ) : ℤ :=
  pyTrunc ((MIN_PARTICLE_COUNT : ℝ) + (MIN_PARTICLE_COUNT : ℝ) * Real.log paramCount)

/-- Model of the particle-count selection at the top of generate: a stored
particleCount is kept, an unspecified one is derived by
get_particle_count. -/
noncomputable def derive_particle_count (stored : Option ℤ) (paramCount : ℕ) : ℤ :=
  stored.getD (get_particle_count paramCount)

/-- Modelled from the spec: CurvatureFitter (cosmoHammer/pso/CurvatureFitter.py
is not among the sources here). Per the spec it fits a quadratic surrogate to
the point cloud anchored at the global best and returns a pair of a mean
vector of the parameter dimension and a covariance matrix. Only the
dimension contract of the mean is retained; the fit itself is abstract. -/
structure CurvatureFitterModel where
  fitMean : List Particle → Particle → List ℚ
  fitCov : List Particle → Particle → List (List ℚ)
  mean_length : ∀ pts anchor, (fitMean pts anchor).length = anchor.position.length

/-- The attributes of the sampler context read by generate. -/
structure SamplerCtx where
  paramCount : ℕ
  nwalkers : ℕ

/-- Model of numpy.random.multivariate_normal (external library): n draws,
each of which is the mean plus an offset the random source derives from
the covariance; every draw has the dimension of the mean. The Gaussian
distribution itself is not expressible in this embedding; the random
source rng stands for the randomness of the draws. -/
def multivariate_normal (rng : List (List ℚ) → ℕ → ℕ → ℚ) (mean : List ℚ)
    (cov : List (List ℚ)) (n : ℕ) : List (List ℚ) :=
  (List.range n).map (fun i =>
    List.zipWith (fun m z => m + z) mean ((List.range mean.length).map (rng cov i)))

/-- The values produced by the tail of generate. -/
structure GenerateResult where
  fswarm : List Particle
  mean : List ℚ
  cov : List (List ℚ)
  samples : List (List ℚ)

/-- Model of the tail of BestFitPositionGenerator.generate: assemble the
trailing four-iteration window from the yielded snapshots, fit the
curvature model to it anchored at the final global best, and draw
nwalkers samples from the multivariate normal distribution given by the
fitted mean and covariance. -/
def generate_run (ctx : SamplerCtx) (snapshots : List (List Particle))
    (gbest : Particle) (fm : CurvatureFitterModel)
    (rng : List (List ℚ) → ℕ → ℕ → ℚ) : Option GenerateResult := do
  let fswarm ← buildFswarm snapshots
  let mean := fm.fitMean fswarm gbest
  let cov := fm.fitCov fswarm gbest
  pure ⟨fswarm, mean, cov, multivariate_normal rng mean cov ctx.nwalkers⟩

/-- A concrete curvature-fitter model used to instantiate theorems on
concrete inputs: the mean is the anchor position, the covariance empty. -/
def cfmAnchor : CurvatureFitterModel :=
  ⟨fun _ anchor => anchor.position, fun _ _ => [], fun _ _ => rfl⟩

/-- Claim C10: when maxIter is not supplied to the constructor, it is set
to MAX_PSO_ITER, which equals 1000, so generate runs the optimizer for
1000 iterations by default. -/
theorem default_max_iter (mpi : Bool) (threads : ℕ) (pc : Option ℤ) :
    (mkGenerator mpi threads pc none).maxIter = MAX_PSO_ITER ∧ MAX_PSO_ITER = 1000 :=
  ⟨rfl, rfl⟩

/-- Claim C8: when the optimizer does not report this process as master,
_save produces no file event at all: the iteration log is unchanged. -/
theorem save_nonmaster_noop (fmtI : ℕ → String) (fmtF fmtS : ℚ → String)
    (i : ℕ) (gbest : Particle) :
    _save false fmtI fmtF fmtS i gbest = [] :=
  rfl

/-- Helper: a negative index that is valid for the right part of an
append ignores the left part. -/
theorem pyGetNeg_append (pre l2 : List α) (i : ℕ) (h1 : 1 ≤ i)
    (h2 : i ≤ l2.length) :
    pyGetNeg (pre ++ l2) i = pyGetNeg l2 i := by
  unfold pyGetNeg
  rw [if_pos ⟨h1, by rw [List.length_append]; omega⟩, if_pos ⟨h1, h2⟩,
    List.length_append, List.get?_append_right (by omega)]
  congr 1
  omega

/-- Helper: the trailing four-iteration window of a snapshot list ending
in a, b, c, d is assembled, most recent first. -/
theorem buildFswarm_last4 (pre : List (List Particle)) (a b c d : List Particle) :
    buildFswarm (pre ++ [a, b, c, d]) = some (d ++ c ++ b ++ a) := by
  have h1 : pyGetNeg (pre ++ [a, b, c, d]) 1 = some d := by
    rw [pyGetNeg_append pre [a, b, c, d] 1 (by norm_num) (by simp)]; rfl
  have h2 : pyGetNeg (pre ++ [a, b, c, d]) 2 = some c := by
    rw [pyGetNeg_append pre [a, b, c, d] 2 (by norm_num) (by simp)]; rfl
  have h3 : pyGetNeg (pre ++ [a, b, c, d]) 3 = some b := by
    rw [pyGetNeg_append pre [a, b, c, d] 3 (by norm_num) (by simp)]; rfl
  have h4 : pyGetNeg (pre ++ [a, b, c, d]) 4 = some a := by
    rw [pyGetNeg_append pre [a, b, c, d] 4 (by norm_num) (by simp)]; rfl
  simp [buildFswarm, h1, h2, h3, h4]

/-- Helper: with at least four snapshots the window assembly succeeds. -/
theorem buildFswarm_of_length_ge4 (l : List (List Particle))
    (h : 4 ≤ l.length) : ∃ f, buildFswarm l = some f := by
  have hsome : ∀ i : ℕ, 1 ≤ i → i ≤ l.length → ∃ x, pyGetNeg l i = some x := by
    intro i hi hil
    unfold pyGetNeg
    rw [if_pos ⟨hi, hil⟩]
    have hne : l.get? (l.length - i) ≠ none := by
      rw [Ne, List.get?_eq_none]
      omega
    exact Option.ne_none_iff_exists'.mp hne
  obtain ⟨s1, e1⟩ := hsome 1 (by omega) (by omega)
  obtain ⟨s2, e2⟩ := hsome 2 (by omega) (by omega)
  obtain ⟨s3, e3⟩ := hsome 3 (by omega) (by omega)
  obtain ⟨s4, e4⟩ := hsome 4 (by omega) (by omega)
  exact ⟨s1 ++ s2 ++ s3 ++ s4, by simp [buildFswarm, e1, e2, e3, e4]⟩

/-- Claim C9: with between one and three yielded snapshots the trailing
window assembly hits an out-of-range negative index, so the tail of
generate fails instead of producing a smaller point cloud. -/
theorem generate_fails_short_window (ctx : SamplerCtx)
    (snapshots : List (List Particle)) (gbest : Particle)
    (fm : CurvatureFitterModel) (rng : List (List ℚ) → ℕ → ℕ → ℚ)
    (h1 : 1 ≤ snapshots.length) (h3 : snapshots.length ≤ 3) :
    generate_run ctx snapshots gbest fm rng = none := by
  have h4 : pyGetNeg snapshots 4 = none := by
    unfold pyGetNeg
    rw [if_neg]
    rintro ⟨-, hc⟩
    omega
  cases e1 : pyGetNeg snapshots 1 <;> cases e2 : pyGetNeg snapshots 2 <;>
    cases e3 : pyGetNeg snapshots 3 <;>
      simp [generate_run, buildFswarm, e1, e2, e3, h4]

/-- Witness for generate_fails_short_window at two snapshots. -/
theorem generate_fails_short_window_witness :
    1 ≤ ([[], []] : List (List Particle)).length ∧
    ([[], []] : List (List Particle)).length ≤ 3 ∧
    generate_run ⟨1, 1⟩ [[], []] ⟨0, [0]⟩ cfmAnchor (fun _ _ _ => 0) = none :=
  ⟨by decide, by decide,
    generate_fails_short_window ⟨1, 1⟩ [[], []] ⟨0, [0]⟩ cfmAnchor
      (fun _ _ _ => 0) (by decide) (by decide)⟩

/-- Claim C1: with at least four snapshots and a global best of the
sampler's parameter dimension, the tail of generate succeeds and returns
the matrix of the multivariate-normal draws taken with the fitter's mean
and covariance: nwalkers rows, each of length paramCount. -/
theorem generate_samples_shape (ctx : SamplerCtx)
    (snapshots : List (List Particle)) (gbest : Particle)
    (fm : CurvatureFitterModel) (rng : List (List ℚ) → ℕ → ℕ → ℚ)
    (hlen : 4 ≤ snapshots.length)
    (hdim : gbest.position.length = ctx.paramCount) :
    ∃ r, generate_run ctx snapshots gbest fm rng = some r ∧
      r.mean = fm.fitMean r.fswarm gbest ∧
      r.cov = fm.fitCov r.fswarm gbest ∧
      r.samples = multivariate_normal rng r.mean r.cov ctx.nwalkers ∧
      r.samples.length = ctx.nwalkers ∧
      ∀ row ∈ r.samples, row.length = ctx.paramCount := by
  obtain ⟨f, hf⟩ := buildFswarm_of_length_ge4 snapshots hlen
  refine ⟨⟨f, fm.fitMean f gbest, fm.fitCov f gbest,
      multivariate_normal rng (fm.fitMean f gbest) (fm.fitCov f gbest)
        ctx.nwalkers⟩,
    by simp [generate_run, hf], rfl, rfl, rfl, by simp [multivariate_normal], ?_⟩
  intro row hrow
  simp only [multivariate_normal, List.mem_map, List.mem_range] at hrow
  obtain ⟨i, -, hr⟩ := hrow
  rw [← hr]
  simp [List.length_zipWith, fm.mean_length, hdim]

/-- Witness for generate_samples_shape at four snapshots in one
dimension with two walkers. -/
theorem generate_samples_shape_witness :
    4 ≤ ([[], [], [], []] : List (List Particle)).length ∧
    (Particle.mk 0 [0]).position.length = (SamplerCtx.mk 1 2).paramCount ∧
    (∃ r, generate_run ⟨1, 2⟩ [[], [], [], []] ⟨0, [0]⟩ cfmAnchor
        (fun _ _ _ => 0) = some r ∧
      r.mean = cfmAnchor.fitMean r.fswarm ⟨0, [0]⟩ ∧
      r.cov = cfmAnchor.fitCov r.fswarm ⟨0, [0]⟩ ∧
      r.samples = multivariate_normal (fun _ _ _ => 0) r.mean r.cov
        (SamplerCtx.mk 1 2).nwalkers ∧
      r.samples.length = (SamplerCtx.mk 1 2).nwalkers ∧
      ∀ row ∈ r.samples, row.length = (SamplerCtx.mk 1 2).paramCount) :=
  ⟨by decide, by decide,
    generate_samples_shape ⟨1, 2⟩ [[], [], [], []] ⟨0, [0]⟩ cfmAnchor
      (fun _ _ _ => 0) (by decide) (by decide)⟩

/-- Helper: the character data of an append of strings. -/
theorem dataAppend (a b : String) : (a ++ b).data = a.data ++ b.data := rfl

/-- Helper: strings with equal character data are equal. -/
theorem stringExt (a b : String) (h : a.data = b.data) : a = b := by
  cases a
  cases b
  exact congrArg String.mk (by simpa using h)

/-- Helper: join over a list with at least two elements peels the head. -/
theorem pyJoin_cons (sep x : String) (l : List String) (h : l ≠ []) :
    pyJoin sep (x :: l) = x ++ sep ++ pyJoin sep l := by
  cases l with
  | nil => exact absurd rfl h
  | cons y rest => rfl

/-- Helper: a join of newline-free strings with a newline-free separator
is newline free. -/
theorem pyJoin_no_newline (sep : String) (l : List String)
    (hsep : '\n' ∉ sep.data) (h : ∀ s ∈ l, '\n' ∉ s.data) :
    '\n' ∉ (pyJoin sep l).data := by
  induction l with
  | nil => simp [pyJoin]
  | cons x rest ih =>
    cases rest with
    | nil => exact h x (by simp)
    | cons y r =>
      rw [pyJoin_cons sep x (y :: r) (by simp)]
      simp only [dataAppend, List.mem_append, not_or]
      exact ⟨⟨h x (by simp), hsep⟩,
        ih (fun s hs => h s (List.mem_cons_of_mem x hs))⟩

/-- Helper: written characters distribute over trace concatenation. -/
theorem writtenChars_append (a b : List FileEvent) :
    writtenChars (a ++ b) = writtenChars a ++ writtenChars b := by
  induction a with
  | nil => rfl
  | cons e rest ih => cases e <;> simp [writtenChars, ih]

/-- Helper: line counts add over trace concatenation. -/
theorem lineCount_append (a b : List FileEvent) :
    lineCount (a ++ b) = lineCount a + lineCount b := by
  simp [lineCount, writtenChars_append, List.count_append]

/-- Helper: a master save writes exactly one newline when the formatters
emit none. -/
theorem lineCount_save (fmtI : ℕ → String) (fmtF fmtS : ℚ → String)
    (i : ℕ) (p : Particle) (hI : '\n' ∉ (fmtI i).data)
    (hF : '\n' ∉ (fmtF p.fitness).data)
    (hS : ∀ q ∈ p.position, '\n' ∉ (fmtS q).data) :
    lineCount (_save true fmtI fmtF fmtS i p) = 1 := by
  have htab : '\n' ∉ tab.data := by decide
  have h1 : '\n' ∉ (fmtI i ++ tab ++ fmtF p.fitness ++ tab).data := by
    simp only [dataAppend, List.mem_append]
    rintro (((hm | hm) | hm) | hm)
    · exact hI hm
    · exact htab hm
    · exact hF hm
    · exact htab hm
  have h2 : '\n' ∉ (pyJoin tab (p.position.map fmtS)).data := by
    refine pyJoin_no_newline tab _ htab ?_
    intro s hs
    obtain ⟨q, hq, rfl⟩ := List.mem_map.mp hs
    exact hS q hq
  simp only [lineCount, _save, if_pos, writtenChars]
  rw [List.count_append, List.count_append]
  rw [List.count_eq_zero.mpr h1, List.count_eq_zero.mpr h2]
  rfl

/-- Helper: the loop part of the iteration log writes one line per
snapshot index. -/
theorem lineCount_save_range (fmtI : ℕ → String) (fmtF fmtS : ℚ → String)
    (gbestAt : ℕ → Particle)
    (hI : ∀ k, '\n' ∉ (fmtI k).data) (hF : ∀ q, '\n' ∉ (fmtF q).data)
    (hS : ∀ q, '\n' ∉ (fmtS q).data) (n : ℕ) :
    lineCount (((List.range n).map
      (fun i => _save true fmtI fmtF fmtS i (gbestAt i))).flatten) = n := by
  induction n with
  | zero => rfl
  | succ m ih =>
    rw [List.range_succ, List.map_append, List.flatten_append, lineCount_append,
      ih]
    simp only [List.map_cons, List.map_nil, List.flatten_cons, List.flatten_nil,
      List.append_nil]
    rw [lineCount_save fmtI fmtF fmtS m (gbestAt m) (hI m) (hF _)
      (fun q _ => hS q)]

/-- Claim C4: on the master process, when the optimizer yields at least
one snapshot, the iteration log holds exactly one line per snapshot plus
one final line: snapshot count + 1 newline-terminated records. -/
theorem iteration_log_line_count (fmtI : ℕ → String) (fmtF fmtS : ℚ → String)
    (gbestAt : ℕ → Particle) (snapshots : List (List Particle))
    (hlen : 1 ≤ snapshots.length)
    (hI : ∀ k, '\n' ∉ (fmtI k).data) (hF : ∀ q, '\n' ∉ (fmtF q).data)
    (hS : ∀ q, '\n' ∉ (fmtS q).data) :
    ∃ es, generate_log true fmtI fmtF fmtS gbestAt snapshots = some es ∧
      lineCount es = snapshots.length + 1 := by
  refine ⟨_, by rw [generate_log, if_neg (by omega)], ?_⟩
  have hbody : lineCount
      ((((List.range snapshots.length).map
          (fun i => _save true fmtI fmtF fmtS i (gbestAt i))).flatten
        ++ _save true fmtI fmtF fmtS snapshots.length
            (gbestAt snapshots.length))
      ++ [FileEvent.closed]) = snapshots.length + 1 := by
    rw [lineCount_append, lineCount_append,
      lineCount_save_range fmtI fmtF fmtS gbestAt hI hF hS,
      lineCount_save fmtI fmtF fmtS _ _ (hI _) (hF _) (fun q _ => hS q)]
    rfl
  simpa [lineCount, writtenChars] using hbody

/-- Witness for iteration_log_line_count: one snapshot, constant
formatters. -/
theorem iteration_log_line_count_witness :
    1 ≤ ([[]] : List (List Particle)).length ∧
    '\n' ∉ "i".data ∧ '\n' ∉ "f".data ∧ '\n' ∉ "s".data ∧
    (∃ es, generate_log true (fun _ => "i") (fun _ => "f") (fun _ => "s")
        (fun _ => ⟨0, [0]⟩) [[]] = some es ∧
      lineCount es = ([[]] : List (List Particle)).length + 1) :=
  have hi : '\n' ∉ "i".data := by decide
  have hf : '\n' ∉ "f".data := by decide
  have hs : '\n' ∉ "s".data := by decide
  ⟨by decide, hi, hf, hs,
    iteration_log_line_count (fun _ => "i") (fun _ => "f") (fun _ => "s")
      (fun _ => ⟨0, [0]⟩) [[]] (by decide) (fun _ => hi) (fun _ => hf)
      (fun _ => hs)⟩

/-- Claim C5: a master save appends exactly one record: the iteration
index, the global best fitness and each coordinate of the global best
position, tab separated and newline terminated, and the trace ends with a
flush of the file. -/
theorem save_line_format (fmtI : ℕ → String) (fmtF fmtS : ℚ → String)
    (i : ℕ) (p : Particle) (hp : p.position ≠ []) :
    ∃ w1 w2 w3, _save true fmtI fmtF fmtS i p =
        [FileEvent.write w1, FileEvent.write w2, FileEvent.write w3,
         FileEvent.flush] ∧
      w1 ++ w2 ++ w3 =
        pyJoin tab (fmtI i :: fmtF p.fitness :: p.position.map fmtS) ++ nl := by
  refine ⟨fmtI i ++ tab ++ fmtF p.fitness ++ tab,
    pyJoin tab (p.position.map fmtS), nl, rfl, ?_⟩
  rw [pyJoin_cons tab (fmtI i) _ (by simp),
    pyJoin_cons tab (fmtF p.fitness) _ (by simpa using hp)]
  refine stringExt _ _ ?_
  simp [dataAppend]

/-- Witness for save_line_format on a one-coordinate particle. -/
theorem save_line_format_witness :
    (Particle.mk 0 [0]).position ≠ [] ∧
    (∃ w1 w2 w3, _save true (fun _ => "i") (fun _ => "f") (fun _ => "s")
        7 ⟨0, [0]⟩ =
        [FileEvent.write w1, FileEvent.write w2, FileEvent.write w3,
         FileEvent.flush] ∧
      w1 ++ w2 ++ w3 =
        pyJoin tab ((fun _ : ℕ => "i") 7 :: (fun _ : ℚ => "f") (0:ℚ) ::
          ([(0:ℚ)].map (fun _ => "s"))) ++ nl) :=
  ⟨by decide,
    save_line_format (fun _ => "i") (fun _ => "f") (fun _ => "s") 7 ⟨0, [0]⟩
      (by decide)⟩

/-- Helper: the characters of one particle's swarm-file writes form the
line the spec describes, when the particle has a coordinate. -/
theorem storeSwarmParticle_chars (fmtS : ℚ → String) (p : Particle)
    (hp : p.position ≠ []) :
    writtenChars (storeSwarmParticle fmtS p) = (specSwarmLine fmtS p).data := by
  simp only [storeSwarmParticle, writtenChars, specSwarmLine]
  rw [pyJoin_cons tab (fmtS p.fitness) _ (by simpa using hp)]
  simp [dataAppend]

/-- Helper: the swarm-file body writes the particles' lines in order. -/
theorem storeSwarmBody_chars (fmtS : ℚ → String) (sw : List Particle)
    (h : ∀ p ∈ sw, p.position ≠ []) :
    writtenChars (storeSwarmBody fmtS sw) =
      (sw.map (fun p => (specSwarmLine fmtS p).data)).flatten := by
  induction sw with
  | nil => rfl
  | cons p rest ih =>
    have step : storeSwarmBody fmtS (p :: rest) =
        storeSwarmParticle fmtS p ++ storeSwarmBody fmtS rest := by
      simp [storeSwarmBody]
    rw [step, writtenChars_append,
      storeSwarmParticle_chars fmtS p (h p (by simp)),
      ih (fun q hq => h q (List.mem_cons_of_mem p hq))]
    simp

/-- Claim C6: the point cloud handed to the curvature fitter is the
concatenation of the last four yielded swarms (most recent first), a
permutation of their in-order flattening, of size four times the particle
count, and the swarm file stores it one tab separated line per particle,
fitness first. -/
theorem swarm_window_flatten (fmtS : ℚ → String) (pre : List (List Particle))
    (a b c d : List Particle) (pc : ℕ)
    (ha : a.length = pc) (hb : b.length = pc) (hc : c.length = pc)
    (hd : d.length = pc)
    (hpos : ∀ p ∈ d ++ c ++ b ++ a, p.position ≠ []) :
    buildFswarm (pre ++ [a, b, c, d]) = some (d ++ c ++ b ++ a) ∧
    (d ++ c ++ b ++ a).Perm (a ++ b ++ c ++ d) ∧
    (d ++ c ++ b ++ a).length = 4 * pc ∧
    writtenChars (_storeSwarm fmtS (d ++ c ++ b ++ a)) =
      ((d ++ c ++ b ++ a).map (fun p => (specSwarmLine fmtS p).data)).flatten := by
  refine ⟨buildFswarm_last4 pre a b c d, ?_, ?_, ?_⟩
  · rw [List.perm_iff_count]
    intro x
    simp only [List.count_append]
    omega
  · simp only [List.length_append, ha, hb, hc, hd]
    omega
  · have hskip : writtenChars (_storeSwarm fmtS (d ++ c ++ b ++ a)) =
        writtenChars (storeSwarmBody fmtS (d ++ c ++ b ++ a)) := by
      simp only [_storeSwarm, writtenChars, writtenChars_append]
      simp [writtenChars]
    rw [hskip, storeSwarmBody_chars fmtS _ hpos]

/-- Witness for swarm_window_flatten: four singleton swarms of the same
one-coordinate particle. -/
theorem swarm_window_flatten_witness :
    ([Particle.mk 0 [0]] : List Particle).length = 1 ∧
    (∀ p ∈ ([⟨0, [0]⟩] ++ [⟨0, [0]⟩] ++ [⟨0, [0]⟩] ++ [⟨0, [0]⟩] :
        List Particle), p.position ≠ []) ∧
    (buildFswarm ([] ++ [[⟨0, [0]⟩], [⟨0, [0]⟩], [⟨0, [0]⟩], [⟨0, [0]⟩]]) =
        some ([⟨0, [0]⟩] ++ [⟨0, [0]⟩] ++ [⟨0, [0]⟩] ++ [⟨0, [0]⟩]) ∧
      (([⟨0, [0]⟩] ++ [⟨0, [0]⟩] ++ [⟨0, [0]⟩] ++ [⟨0, [0]⟩] :
        List Particle)).Perm
        ([⟨0, [0]⟩] ++ [⟨0, [0]⟩] ++ [⟨0, [0]⟩] ++ [⟨0, [0]⟩]) ∧
      (([⟨0, [0]⟩] ++ [⟨0, [0]⟩] ++ [⟨0, [0]⟩] ++ [⟨0, [0]⟩] :
        List Particle)).length = 4 * 1 ∧
      writtenChars (_storeSwarm (fun _ => "s")
          ([⟨0, [0]⟩] ++ [⟨0, [0]⟩] ++ [⟨0, [0]⟩] ++ [⟨0, [0]⟩])) =
        (([⟨0, [0]⟩] ++ [⟨0, [0]⟩] ++ [⟨0, [0]⟩] ++ [⟨0, [0]⟩] :
          List Particle).map
          (fun p => (specSwarmLine (fun _ => "s") p).data)).flatten) :=
  ⟨by decide, by decide,
    swarm_window_flatten (fun _ => "s") [] [⟨0, [0]⟩] [⟨0, [0]⟩] [⟨0, [0]⟩]
      [⟨0, [0]⟩] 1 (by decide) (by decide) (by decide) (by decide)
      (by decide)⟩

/-- Counterexample for claim C7: the best-fit info file trace contains
writes but not a single flush, so it is not flushed after every write. -/
theorem storeFit_not_flushed :
    0 < List.countP isWrite (_storeFit (fun _ => "q") ⟨0, [0]⟩ [[1]]) ∧
    everyWriteFlushed (_storeFit (fun _ => "q") ⟨0, [0]⟩ [[1]]) = false := by
  decide

/-- Helper: a trace whose writes are all flushed stays so under
concatenation with another such trace. -/
theorem evwf_append (a b : List FileEvent)
    (ha : everyWriteFlushed a = true) (hb : everyWriteFlushed b = true) :
    everyWriteFlushed (a ++ b) = true := by
  induction a with
  | nil => simpa using hb
  | cons e rest ih =>
    simp only [everyWriteFlushed, Bool.and_eq_true, Bool.or_eq_true] at ha ⊢
    obtain ⟨h1, h2⟩ := ha
    refine ⟨?_, ih h2⟩
    rcases h1 with h1 | h1
    · exact Or.inl h1
    · right
      simp [List.any_append, h1]

/-- Helper: every save trace has all its writes flushed. -/
theorem evwf_save (m : Bool) (fmtI : ℕ → String) (fmtF fmtS : ℚ → String)
    (i : ℕ) (p : Particle) :
    everyWriteFlushed (_save m fmtI fmtF fmtS i p) = true := by
  cases m <;> rfl

/-- Helper: a flattening of traces, each with all writes flushed, has all
writes flushed. -/
theorem evwf_flatten (ls : List (List FileEvent))
    (h : ∀ l ∈ ls, everyWriteFlushed l = true) :
    everyWriteFlushed ls.flatten = true := by
  induction ls with
  | nil => rfl
  | cons l rest ih =>
    rw [List.flatten_cons]
    exact evwf_append l rest.flatten (h l (by simp))
      (ih (fun x hx => h x (List.mem_cons_of_mem l hx)))

/-- Helper: no event of a save trace is an open event. -/
theorem save_no_open (m : Bool) (fmtI : ℕ → String) (fmtF fmtS : ℚ → String)
    (i : ℕ) (p : Particle) :
    ∀ e ∈ _save m fmtI fmtF fmtS i p, isOpen e = false := by
  intro e he
  cases m with
  | false => simp [_save] at he
  | true =>
    simp only [_save, if_true, List.mem_cons, List.not_mem_nil, or_false] at he
    rcases he with rfl | rfl | rfl | rfl <;> rfl

/-- Helper: every event of the swarm-file body is a write. -/
theorem storeSwarmBody_writes (fmtS : ℚ → String) (sw : List Particle) :
    ∀ e ∈ storeSwarmBody fmtS sw, isWrite e = true := by
  intro e he
  simp only [storeSwarmBody, List.mem_flatten, List.mem_map] at he
  obtain ⟨l, ⟨p, -, rfl⟩, hel⟩ := he
  simp only [storeSwarmParticle, List.mem_cons, List.not_mem_nil, or_false]
    at hel
  rcases hel with rfl | rfl | rfl | rfl <;> rfl

/-- Helper: every event of the middle part of the info-file trace is a
write. -/
theorem storeFitMid_writes (fmtS : ℚ → String) (gbest : Particle)
    (cov : List (List ℚ)) :
    ∀ e ∈ (FileEvent.write (bestFitHeader ++ fmtS gbest.fitness ++ nl) ::
      FileEvent.write (pyJoin commaSpace (gbest.position.map fmtS)) ::
      FileEvent.write covHeader ::
      cov.map (fun row =>
        FileEvent.write (lbrack ++ pyJoin commaTwoSpace (row.map fmtS) ++
          rbrackNl))), isWrite e = true := by
  intro e he
  simp only [List.mem_cons] at he
  rcases he with rfl | rfl | rfl | hm
  · rfl
  · rfl
  · rfl
  · obtain ⟨row, -, rfl⟩ := List.mem_map.mp hm
    rfl

/-- Helper: a trace opening the file, running a body free of open events
and closing the file opens it exactly once. -/
theorem countP_open_one (body : List FileEvent)
    (h : ∀ e ∈ body, isOpen e = false) :
    List.countP isOpen
      (FileEvent.opened :: (body ++ [FileEvent.closed])) = 1 := by
  have hb : List.countP isOpen body = 0 :=
    List.countP_eq_zero.mpr (fun e he => by simp [h e he])
  rw [List.countP_cons_of_pos _ _ (by rfl), List.countP_append, hb]
  rfl

/-- Helper: a trace opening the file, running a body free of flush events
and closing the file never flushes. -/
theorem countP_flush_zero (body : List FileEvent)
    (h : ∀ e ∈ body, isFlush e = false) :
    List.countP isFlush
      (FileEvent.opened :: (body ++ [FileEvent.closed])) = 0 := by
  have hb : List.countP isFlush body = 0 :=
    List.countP_eq_zero.mpr (fun e he => by simp [h e he])
  rw [List.countP_cons_of_neg _ _ (by simp [isFlush]), List.countP_append, hb]
  rfl

/-- Claim C7 as amended: each artifact trace opens its file exactly once;
the iteration log is flushed after every write, while the best-fit info
file and the swarm file issue no flush at all between open and close. -/
theorem artifacts_open_flush (fmtI : ℕ → String) (fmtF fmtS : ℚ → String)
    (gbestAt : ℕ → Particle) (snapshots : List (List Particle))
    (gbest : Particle) (cov : List (List ℚ)) (sw : List Particle)
    (hlen : 1 ≤ snapshots.length) :
    (∃ es, generate_log true fmtI fmtF fmtS gbestAt snapshots = some es ∧
        List.countP isOpen es = 1 ∧ everyWriteFlushed es = true) ∧
    List.countP isOpen (_storeFit fmtS gbest cov) = 1 ∧
    List.countP isFlush (_storeFit fmtS gbest cov) = 0 ∧
    List.countP isOpen (_storeSwarm fmtS sw) = 1 ∧
    List.countP isFlush (_storeSwarm fmtS sw) = 0 := by
  refine ⟨⟨_, by rw [generate_log, if_neg (by omega)], ?_, ?_⟩, ?_, ?_, ?_, ?_⟩
  · refine countP_open_one _ ?_
    intro e he
    rcases List.mem_append.mp he with hm | hm
    · obtain ⟨l, hl, hel⟩ := List.mem_flatten.mp hm
      obtain ⟨i, -, rfl⟩ := List.mem_map.mp hl
      exact save_no_open true fmtI fmtF fmtS i (gbestAt i) e hel
    · exact save_no_open true fmtI fmtF fmtS _ _ e hm
  · have h1 : everyWriteFlushed
        (((List.range snapshots.length).map
          (fun i => _save true fmtI fmtF fmtS i (gbestAt i))).flatten) = true := by
      refine evwf_flatten _ ?_
      intro l hl
      obtain ⟨i, -, rfl⟩ := List.mem_map.mp hl
      exact evwf_save true fmtI fmtF fmtS i (gbestAt i)
    have h2 : everyWriteFlushed
        ((((List.range snapshots.length).map
            (fun i => _save true fmtI fmtF fmtS i (gbestAt i))).flatten
          ++ _save true fmtI fmtF fmtS snapshots.length
              (gbestAt snapshots.length))
        ++ [FileEvent.closed]) = true :=
      evwf_append _ _ (evwf_append _ _ h1 (evwf_save true fmtI fmtF fmtS _ _))
        rfl
    simpa [everyWriteFlushed, isWrite] using h2
  · refine countP_open_one _ ?_
    intro e he
    have hw := storeFitMid_writes fmtS gbest cov e he
    cases e <;> simp_all [isWrite, isOpen]
  · refine countP_flush_zero _ ?_
    intro e he
    have hw := storeFitMid_writes fmtS gbest cov e he
    cases e <;> simp_all [isWrite, isFlush]
  · refine countP_open_one _ ?_
    intro e he
    have hw := storeSwarmBody_writes fmtS sw e he
    cases e <;> simp_all [isWrite, isOpen]
  · refine countP_flush_zero _ ?_
    intro e he
    have hw := storeSwarmBody_writes fmtS sw e he
    cases e <;> simp_all [isWrite, isFlush]

/-- Witness for artifacts_open_flush on concrete one-element data. -/
theorem artifacts_open_flush_witness :
    1 ≤ ([[]] : List (List Particle)).length ∧
    ((∃ es, generate_log true (fun _ => "i") (fun _ => "f") (fun _ => "s")
         (fun _ => ⟨0, [0]⟩) [[]] = some es ∧
        List.countP isOpen es = 1 ∧ everyWriteFlushed es = true) ∧
     List.countP isOpen (_storeFit (fun _ => "s") ⟨0, [0]⟩ [[1]]) = 1 ∧
     List.countP isFlush (_storeFit (fun _ => "s") ⟨0, [0]⟩ [[1]]) = 0 ∧
     List.countP isOpen (_storeSwarm (fun _ => "s") [⟨0, [0]⟩]) = 1 ∧
     List.countP isFlush (_storeSwarm (fun _ => "s") [⟨0, [0]⟩]) = 0) :=
  ⟨by decide,
    artifacts_open_flush (fun _ => "i") (fun _ => "f") (fun _ => "s")
      (fun _ => ⟨0, [0]⟩) [[]] ⟨0, [0]⟩ [[1]] [⟨0, [0]⟩] (by decide)⟩

/-- Helper: a strict lower bound on the logarithm of five. -/
theorem log_five_gt : (8:ℝ)/5 < Real.log 5 := by
  rw [Real.lt_log_iff_exp_lt (by norm_num : (0:ℝ) < 5)]
  have he : Real.exp 8 = Real.exp 1 ^ (8:ℕ) := by
    rw [← Real.exp_nat_mul]
    norm_num
  have hp : Real.exp 1 ^ (8:ℕ) < (2.7182818286:ℝ) ^ (8:ℕ) :=
    pow_lt_pow_left₀ Real.exp_one_lt_d9 (Real.exp_pos 1).le (by norm_num)
  have h8 : Real.exp 8 < 3125 := by
    rw [he]
    exact hp.trans (by norm_num)
  have hpow : Real.exp (8/5) ^ (5:ℕ) < (5:ℝ) ^ (5:ℕ) := by
    have hq : Real.exp (8/5) ^ (5:ℕ) = Real.exp 8 := by
      rw [← Real.exp_nat_mul]
      norm_num
    rw [hq]
    exact h8.trans_le (by norm_num)
  exact lt_of_pow_lt_pow_left₀ 5 (by norm_num) hpow

/-- Helper: a strict upper bound on the logarithm of five. -/
theorem log_five_lt : Real.log 5 < 33/20 := by
  rw [Real.log_lt_iff_lt_exp (by norm_num : (0:ℝ) < 5)]
  have he : Real.exp (33/20) ^ (20:ℕ) = Real.exp 33 := by
    rw [← Real.exp_nat_mul]
    norm_num
  have h33 : Real.exp 1 ^ (33:ℕ) = Real.exp 33 := by
    rw [← Real.exp_nat_mul]
    norm_num
  have key : (5:ℝ) ^ (20:ℕ) < Real.exp (33/20) ^ (20:ℕ) := by
    calc (5:ℝ) ^ (20:ℕ) < (2.7182818283:ℝ) ^ (33:ℕ) := by norm_num
      _ < Real.exp 1 ^ (33:ℕ) :=
          pow_lt_pow_left₀ Real.exp_one_gt_d9 (by norm_num) (by norm_num)
      _ = Real.exp 33 := h33
      _ = Real.exp (33/20) ^ (20:ℕ) := he.symm
  exact lt_of_pow_lt_pow_left₀ 20 (Real.exp_pos _).le key

/-- Helper: a strict lower bound on the logarithm of three. -/
theorem log_three_gt : (27:ℝ)/25 < Real.log 3 := by
  rw [Real.lt_log_iff_exp_lt (by norm_num : (0:ℝ) < 3)]
  have he : Real.exp 27 = Real.exp 1 ^ (27:ℕ) := by
    rw [← Real.exp_nat_mul]
    norm_num
  have hp : Real.exp 1 ^ (27:ℕ) < (2.7182818286:ℝ) ^ (27:ℕ) :=
    pow_lt_pow_left₀ Real.exp_one_lt_d9 (Real.exp_pos 1).le (by norm_num)
  have h27 : Real.exp 27 < 847288609443 := by
    rw [he]
    exact hp.trans (by norm_num)
  have hpow : Real.exp (27/25) ^ (25:ℕ) < (3:ℝ) ^ (25:ℕ) := by
    have hq : Real.exp (27/25) ^ (25:ℕ) = Real.exp 27 := by
      rw [← Real.exp_nat_mul]
      norm_num
    rw [hq]
    exact h27.trans_le (by norm_num)
  exact lt_of_pow_lt_pow_left₀ 25 (by norm_num) hpow

/-- Helper: a strict upper bound on the logarithm of three. -/
theorem log_three_lt : Real.log 3 < 11/10 := by
  rw [Real.log_lt_iff_lt_exp (by norm_num : (0:ℝ) < 3)]
  have he : Real.exp (11/10) ^ (10:ℕ) = Real.exp 11 := by
    rw [← Real.exp_nat_mul]
    norm_num
  have h11 : Real.exp 1 ^ (11:ℕ) = Real.exp 11 := by
    rw [← Real.exp_nat_mul]
    norm_num
  have key : (3:ℝ) ^ (10:ℕ) < Real.exp (11/10) ^ (10:ℕ) := by
    calc (3:ℝ) ^ (10:ℕ) < (2.7182818283:ℝ) ^ (11:ℕ) := by norm_num
      _ < Real.exp 1 ^ (11:ℕ) :=
          pow_lt_pow_left₀ Real.exp_one_gt_d9 (by norm_num) (by norm_num)
      _ = Real.exp 11 := h11
      _ = Real.exp (11/10) ^ (10:ℕ) := he.symm
  exact lt_of_pow_lt_pow_left₀ 10 (Real.exp_pos _).le key

/-- Claim C3: for five parameters and no stored particle count the
derived default particle count is 52, the floor of 20 + 20 ln 5. -/
theorem particle_count_five : derive_particle_count none 5 = 52 := by
  have hM : ((MIN_PARTICLE_COUNT:ℕ):ℝ) = (20:ℝ) := by
    norm_num [MIN_PARTICLE_COUNT]
  have hcast : ((5:ℕ):ℝ) = (5:ℝ) := by norm_num
  have harg : (0:ℝ) ≤ (20:ℝ) + 20 * Real.log 5 := by
    nlinarith [log_five_gt]
  unfold derive_particle_count get_particle_count pyTrunc
  simp only [Option.getD_none]
  rw [hM, hcast, if_pos harg, Int.floor_eq_iff]
  constructor
  · push_cast
    nlinarith [log_five_gt]
  · push_cast
    nlinarith [log_five_lt]

/-- Counterexample for claim C2: at three parameters the derived count is
the truncation 41, not the rounding 42 of 20 + 20 ln 3. -/
theorem particle_count_not_round :
    derive_particle_count none 3 ≠ round ((20:ℝ) + 20 * Real.log 3) := by
  have hM : ((MIN_PARTICLE_COUNT:ℕ):ℝ) = (20:ℝ) := by
    norm_num [MIN_PARTICLE_COUNT]
  have hcast : ((3:ℕ):ℝ) = (3:ℝ) := by norm_num
  have harg : (0:ℝ) ≤ (20:ℝ) + 20 * Real.log 3 := by
    nlinarith [log_three_gt]
  have h1 : derive_particle_count none 3 = 41 := by
    unfold derive_particle_count get_particle_count pyTrunc
    simp only [Option.getD_none]
    rw [hM, hcast, if_pos harg, Int.floor_eq_iff]
    constructor
    · push_cast
      nlinarith [log_three_gt]
    · push_cast
      nlinarith [log_three_lt]
  have h2 : round ((20:ℝ) + 20 * Real.log 3) = 42 := by
    rw [round_eq, Int.floor_eq_iff]
    constructor
    · push_cast
      nlinarith [log_three_gt]
    · push_cast
      nlinarith [log_three_lt]
  rw [h1, h2]
  decide

/-- Claim C2 as amended: with no stored particle count the derived count
is the floor (Python int truncation) of 20 + 20 ln paramCount, not its
rounding, and for at least one parameter it is never below 20. -/
theorem particle_count_floor (n : ℕ) (h : 1 ≤ n) :
    derive_particle_count none n = ⌊(20:ℝ) + 20 * Real.log n⌋ ∧
    20 ≤ derive_particle_count none n := by
  have hM : ((MIN_PARTICLE_COUNT:ℕ):ℝ) = (20:ℝ) := by
    norm_num [MIN_PARTICLE_COUNT]
  have hlog : 0 ≤ Real.log n := Real.log_nonneg (by exact_mod_cast h)
  have harg : (0:ℝ) ≤ (20:ℝ) + 20 * Real.log n := by nlinarith
  have heq : derive_particle_count none n = ⌊(20:ℝ) + 20 * Real.log n⌋ := by
    unfold derive_particle_count get_particle_count pyTrunc
    simp only [Option.getD_none]
    rw [hM, if_pos harg]
  refine ⟨heq, ?_⟩
  rw [heq, Int.le_floor]
  push_cast
  nlinarith

/-- Witness for particle_count_floor at two parameters. -/
theorem particle_count_floor_witness :
    1 ≤ 2 ∧ (derive_particle_count none 2 = ⌊(20:ℝ) + 20 * Real.log 2⌋ ∧
      20 ≤ derive_particle_count none 2) :=
  ⟨by norm_num, particle_count_floor 2 (by norm_num)⟩
